import Mathlib

/-!
Verification of the RepoMind knowledge-generation core.

This file gives a shallow embedding, over `List Char`, of the two source
units the claims are about:

* `TaskListManager` (stream demultiplexing, fallback extraction, result
  aggregation, knowledge-base update), and
* `SDKHelper` (the retry / degradation / salvage ladder around the
  streaming query).

JS strings are modelled as `List Char` (one element per UTF-16 code unit;
every character appearing here is in the BMP, so `.length` agrees).
Floating-point confidence arithmetic is modelled over `ℚ` with the same
literals; `Math.floor(m * 0.6)` on a natural `m` is modelled as
`3 * m / 5` (natural division) and `timeout * 1.5` as `3 * t / 2`.
-/

namespace RepoMind

/-! ### JS string primitives -/

/-- Model of `String.prototype.indexOf`: index of the first occurrence of
`pat` in `s`, `none` standing for the JS return value `-1`. -/
def jsIndexOf? (pat : List Char) : List Char → Option Nat
  | [] => if pat.isPrefixOf ([] : List Char) then some 0 else none
  | c :: s => if pat.isPrefixOf (c :: s) then some 0 else (jsIndexOf? pat s).map (· + 1)

/-- Model of `String.prototype.includes`: substring occurrence test. -/
def jsIncludes (s pat : List Char) : Bool := decide (pat <:+: s)

/-- JS whitespace class `\s` (the code points that occur in this code base). -/
def isJsWs (c : Char) : Bool :=
  c = ' ' || c = '\t' || c = '\n' || c = '\r' || c = '\x0b' || c = '\x0c'

/-- Model of `String.prototype.trim`. -/
def jsTrim (s : List Char) : List Char :=
  ((s.dropWhile isJsWs).reverse.dropWhile isJsWs).reverse

/-- Model of `String.prototype.substring(i, j)`; JS swaps the arguments
when `i > j`. -/
def jsSubstring (s : List Char) (i j : Nat) : List Char :=
  if i ≤ j then (s.take j).drop i else (s.take i).drop j

/-! ### The declared analysis tasks (`TaskListManager.ANALYSIS_TASKS`) -/

/-- One entry of the static `ANALYSIS_TASKS` table (the fields the claims
depend on; `promptFile` and `description` feed only prompt construction). -/
structure AnalysisTask where
  id : List Char
  name : List Char
  outputFile : List Char
  priority : Nat
deriving DecidableEq

/-- The fixed task table of `TaskListManager`. -/
def ANALYSIS_TASKS : List AnalysisTask :=
  [ ⟨"overview".data, "项目概览".data, "docs/overview.md".data, 1⟩,
    ⟨"systemArchitecture".data, "系统架构与组件设计".data, "docs/system-architecture.md".data, 2⟩,
    ⟨"apiReference".data, "API接口与数据模型".data, "docs/api-reference.md".data, 3⟩,
    ⟨"businessWorkflows".data, "业务流程".data, "docs/business-workflows.md".data, 4⟩ ]

/-- Start marker \x7b`=== TASK_START: ${task.id} ===`\x7d. -/
def startMarker (t : AnalysisTask) : List Char :=
  "=== TASK_START: ".data ++ t.id ++ " ===".data

/-- End marker \x7b`=== TASK_END: ${task.id} ===`\x7d. -/
def endMarker (t : AnalysisTask) : List Char :=
  "=== TASK_END: ".data ++ t.id ++ " ===".data

/-! ### Fallback extraction, strategy 1: `tryStandardFormat` -/

/-- Strategy 1: exact-marker extraction, `TaskListManager.tryStandardFormat`. -/
def tryStandardFormat (analysisResult : List Char) (t : AnalysisTask) : Option (List Char) :=
  match jsIndexOf? (startMarker t) analysisResult, jsIndexOf? (endMarker t) analysisResult with
  | some si, some ei =>
      if si < ei then
        some (jsTrim (jsSubstring analysisResult (si + (startMarker t).length) ei))
      else none
  | _, _ => none

/-! ### Fallback extraction, strategy 2: `tryVariantFormats` -/

/-- The fixed list of delimiter variants tried by `tryVariantFormats`. -/
def variantMarkers (t : AnalysisTask) : List (List Char × List Char) :=
  [ ("=== TASK_START:".data ++ t.id ++ " ===".data, "=== TASK_END:".data ++ t.id ++ " ===".data),
    ("=== TASK_START: ".data ++ t.id ++ "===".data, "=== TASK_END: ".data ++ t.id ++ "===".data),
    ("===TASK_START: ".data ++ t.id ++ " ===".data, "===TASK_END: ".data ++ t.id ++ " ===".data),
    ("== TASK_START: ".data ++ t.id ++ " ==".data, "== TASK_END: ".data ++ t.id ++ " ==".data),
    ("==== TASK_START: ".data ++ t.id ++ " ====".data, "==== TASK_END: ".data ++ t.id ++ " ====".data),
    ("=== TASK_START：".data ++ t.id ++ " ===".data, "=== TASK_END：".data ++ t.id ++ " ===".data) ]

/-- One variant pair, same slicing as the standard format. -/
def tryVariantAt (analysisResult : List Char) (p : List Char × List Char) : Option (List Char) :=
  match jsIndexOf? p.1 analysisResult, jsIndexOf? p.2 analysisResult with
  | some si, some ei =>
      if si < ei then
        some (jsTrim (jsSubstring analysisResult (si + p.1.length) ei))
      else none
  | _, _ => none

/-- Strategy 2: `TaskListManager.tryVariantFormats`, first matching variant wins. -/
def tryVariantFormats (analysisResult : List Char) (t : AnalysisTask) : Option (List Char) :=
  (variantMarkers t).findSome? (tryVariantAt analysisResult)

/-! ### Fallback extraction, strategy 3: `tryFuzzyMatching`

The source uses four regexes with the `i` flag; they are modelled
directly.  Whitespace skipping after `\s*` is deterministic here because
every task name and every literal that follows a `\s*` begins with a
non-whitespace character, so only the maximal skip can continue the match. -/

/-- Case-insensitive character comparison (the regex `i` flag). -/
def ciEq (a b : Char) : Bool := a.toLower = b.toLower

/-- Case-insensitive prefix test. -/
def ciIsPrefixOf : List Char → List Char → Bool
  | [], _ => true
  | _ :: _, [] => false
  | a :: p, b :: s => ciEq a b && ciIsPrefixOf p s

/-- Does `#^k \s* name` match at the head of `s`? Returns the remainder
after the name (where the lazy capture group starts). -/
def matchHeadAt (hashes name : List Char) (s : List Char) : Option (List Char) :=
  if hashes.isPrefixOf s then
    let r := (s.drop hashes.length).dropWhile isJsWs
    if ciIsPrefixOf name r then some (r.drop name.length) else none
  else none

/-- Lookahead `#^k\s*[^#\s]`: `k` hashes, any whitespace, then a character
that is neither `#` nor whitespace. -/
def headBoundary (hashes : List Char) (u : List Char) : Bool :=
  if hashes.isPrefixOf u then
    match (u.drop hashes.length).dropWhile isJsWs with
    | [] => false
    | c :: _ => !(c = '#') && !(isJsWs c)
  else false

/-- Lazy capture `([\s\S]*?)` up to the first position where `stop` holds
(the lookahead); falls back to the whole remainder (the `$` alternative). -/
def lazyCapture (stop : List Char → Bool) : List Char → List Char
  | [] => []
  | c :: u => if stop (c :: u) then [] else c :: lazyCapture stop u

/-- Leftmost-match scan: try `pre` at every position from the left, return
its output at the first position where it succeeds. -/
def scanMatch (pre : List Char → Option (List Char)) : List Char → Option (List Char)
  | [] => pre []
  | c :: s =>
      match pre (c :: s) with
      | some r => some r
      | none => scanMatch pre s

/-- One heading regex `#^k\s*name([\s\S]*?)(?=#^k\s*[^#\s]|$)` (`i` flag),
returning the raw capture group. -/
def tryHeadingPattern (k : Nat) (name content : List Char) : Option (List Char) :=
  let hashes := List.replicate k '#'
  match scanMatch (matchHeadAt hashes name) content with
  | none => none
  | some rest => some (lazyCapture (headBoundary hashes) rest)

/-- Does `.*?---` match (a later `---` with no line break before it)?
JS `.` does not match `\n` or `\r`. -/
def dashRun : List Char → Bool
  | [] => false
  | c :: u =>
      if "---".data.isPrefixOf (c :: u) then true
      else if c = '\n' || c = '\r' then false
      else dashRun u

/-- Lookahead `---.*?---`. -/
def dashBoundary (u : List Char) : Bool :=
  if "---".data.isPrefixOf u then dashRun (u.drop 3) else false

/-- Does `---\s*name\s*---` match at the head of `s`? Returns the remainder. -/
def matchDashAt (name : List Char) (s : List Char) : Option (List Char) :=
  if "---".data.isPrefixOf s then
    let r := (s.drop 3).dropWhile isJsWs
    if ciIsPrefixOf name r then
      let r2 := (r.drop name.length).dropWhile isJsWs
      if "---".data.isPrefixOf r2 then some (r2.drop 3) else none
    else none
  else none

/-- The regex `---\s*name\s*---([\s\S]*?)(?=---.*?---|$)`, raw capture. -/
def tryDashPattern (name content : List Char) : Option (List Char) :=
  match scanMatch (matchDashAt name) content with
  | none => none
  | some rest => some (lazyCapture dashBoundary rest)

/-- Strategy 3: `TaskListManager.tryFuzzyMatching` — the four patterns in
source order; a pattern hit counts only when the trimmed capture exceeds
100 characters, and the trimmed capture is returned. -/
def tryFuzzyMatching (analysisResult : List Char) (t : AnalysisTask) : Option (List Char) :=
  [ tryHeadingPattern 1 t.name analysisResult,
    tryHeadingPattern 2 t.name analysisResult,
    tryHeadingPattern 3 t.name analysisResult,
    tryDashPattern t.name analysisResult ].findSome? (fun r =>
      match r with
      | some cap => if 100 < (jsTrim cap).length then some (jsTrim cap) else none
      | none => none)

/-! ### Fallback dispatcher: `extractTaskContentForFallback` -/

/-- JS truthiness of a `string | null` value: `null` and `''` are falsy. -/
def jsTruthy (r : Option (List Char)) : Bool :=
  match r with
  | none => false
  | some s => !s.isEmpty

/-- `TaskListManager.extractTaskContentForFallback`: the three strategies in
order, the first truthy result wins. -/
def extractTaskContentForFallback (analysisResult : List Char) (t : AnalysisTask) :
    Option (List Char) :=
  let std := tryStandardFormat analysisResult t
  if jsTruthy std then std
  else
    let var := tryVariantFormats analysisResult t
    if jsTruthy var then var
    else tryFuzzyMatching analysisResult t

/-! ### Live stream demultiplexing: `detectAndWriteCompletedTasks`

The session state carries the `realtimeWrittenTasks` set (as an
insertion-ordered duplicate-free list), the `taskBuffer` of opened task
ids, and a log of the physical persistence writes performed
(`writeTaskImmediately` during streaming and `writeTaskOutput` in the
final pass).  File writes are modelled as always succeeding; in the
source a failed live write is caught and leaves the task unmarked, which
only delays resolution. -/

/-- Mutable session state of `TaskListManager` during one generation run. -/
structure ScanState where
  realtimeWrittenTasks : List (List Char)
  taskBuffer : List (List Char)
  writeLog : List (List Char × List Char)
deriving DecidableEq

/-- The initial session state (`realtimeWrittenTasks.clear()`). -/
def initialState : ScanState := ⟨[], [], []⟩

/-- `TaskListManager.formatDocument`: fixed header and footer around the
extracted content (the wall-clock timestamp is a parameter). -/
def formatDocument (content : List Char) (t : AnalysisTask)
    (projectName timestamp : List Char) : List Char :=
  "# ".data ++ t.name ++ " - ".data ++ projectName ++ "\n\n".data ++ content ++
    "\n\n---\n*本文档由RepoMind系统自动生成于 ".data ++ timestamp ++ "*  \n*任务: ".data ++
    t.name ++ "*\n".data

/-- The body of the `for` loop of `detectAndWriteCompletedTasks` for one
task: skip if already written; record an opened task in the buffer; if
both markers are found in order and the trimmed slice exceeds 100
characters, write immediately and mark resolved. -/
def detectTaskStep (content projectName timestamp : List Char)
    (st : ScanState) (t : AnalysisTask) : ScanState :=
  if st.realtimeWrittenTasks.contains t.id then st
  else
    let si? := jsIndexOf? (startMarker t) content
    let ei? := jsIndexOf? (endMarker t) content
    let st1 :=
      match si? with
      | some _ =>
          if st.taskBuffer.contains t.id then st
          else { st with taskBuffer := st.taskBuffer ++ [t.id] }
      | none => st
    match si?, ei? with
    | some si, some ei =>
        if si < ei then
          let taskContent := jsTrim (jsSubstring content (si + (startMarker t).length) ei)
          if 100 < taskContent.length then
            { st1 with
              realtimeWrittenTasks := st1.realtimeWrittenTasks ++ [t.id],
              taskBuffer := st1.taskBuffer.filter (fun x => !(x = t.id)),
              writeLog := st1.writeLog ++
                [(t.id, formatDocument taskContent t projectName timestamp)] }
          else st1
        else st1
    | _, _ => st1

/-- `TaskListManager.detectAndWriteCompletedTasks`: one rescan of the full
buffer over every declared task. -/
def detectAndWriteCompletedTasks (content projectName timestamp : List Char)
    (st : ScanState) : ScanState :=
  ANALYSIS_TASKS.foldl (detectTaskStep content projectName timestamp) st

/-! ### Fallback parsing and aggregation -/

/-- One element of the `TaskOutput[]` built by `parseTaskOutputs`; the
`realtimeWritten` / `fallbackParsed` flags model the metadata fields that
the rest of the pipeline consults, and `references` the list produced by
`SDKHelper.extractStructuredData`. -/
structure TaskOutput where
  taskId : List Char
  document : List Char
  realtimeWritten : Bool
  fallbackParsed : Bool
  references : List (List Char)
deriving DecidableEq

/-- The realtime branch of `parseTaskOutputs` for one live-written task
id: look the task up and read back the file written live.  `store` models
the file read (`none` = read failure, which still produces exactly one
error-marked output); `refsFn` abstracts the references extracted from a
document by `SDKHelper.extractStructuredData`. -/
def realtimeOutput (store : List Char → Option (List Char))
    (refsFn : List Char → List (List Char)) (tid : List Char) : Option TaskOutput :=
  match ANALYSIS_TASKS.find? (fun t => t.id = tid) with
  | none => none
  | some t =>
      match store tid with
      | some actualContent => some ⟨t.id, actualContent, true, false, refsFn actualContent⟩
      | none =>
          some ⟨t.id, "# ".data ++ t.name ++ " - 文件读取失败\n\n实时写入的文件无法读取".data,
                true, false, []⟩

/-- The fallback (`兜底`) branch of `parseTaskOutputs` for one task that
was not written live: keep it exactly when extraction yields more than
100 characters. -/
def fallbackOutput (refsFn : List Char → List (List Char))
    (analysisResult projectName timestamp : List Char) (t : AnalysisTask) : Option TaskOutput :=
  match extractTaskContentForFallback analysisResult t with
  | some taskContent =>
      if 100 < taskContent.length then
        some ⟨t.id, formatDocument taskContent t projectName timestamp, false, true,
              refsFn taskContent⟩
      else none
  | none => none

/-- `TaskListManager.parseTaskOutputs`: an output is produced for every
live-written task, and for a remaining task exactly when fallback
extraction yields more than 100 characters; an unresolved task produces
no output at all. -/
def parseTaskOutputs (realtimeWrittenTasks : List (List Char))
    (store : List Char → Option (List Char)) (refsFn : List Char → List (List Char))
    (analysisResult projectName timestamp : List Char) : List TaskOutput :=
  realtimeWrittenTasks.filterMap (realtimeOutput store refsFn)
    ++ (ANALYSIS_TASKS.filter (fun t => !(realtimeWrittenTasks.contains t.id))).filterMap
        (fallbackOutput refsFn analysisResult projectName timestamp)

/-- `TaskListManager.calculateTaskConfidence`, over `ℚ`. -/
def calculateTaskConfidence (output : TaskOutput) : ℚ :=
  let document := output.document
  let c1 : ℚ := min ((document.length : ℚ) / 2000) 1 * (4 / 10)
  let c2 := if jsIncludes document "#".data && jsIncludes document "##".data
            then c1 + 2 / 10 else c1
  let c3 := if jsIncludes document "```mermaid".data then c2 + 1 / 10 else c2
  let c4 := if jsIncludes document "|".data && jsIncludes document "---".data
            then c3 + 1 / 10 else c3
  let c5 := if 0 < output.references.length then c4 + 1 / 10 else c4
  let c6 := if jsIncludes document "[注意：".data || jsIncludes document "分析因".data
            then c5 * (7 / 10) else c5
  min c6 1

/-- The status union of `KnowledgeGenerationResult` from `types/index.ts`
(`'success' | 'partial' | 'error'`). -/
inductive GenStatus
  | success
  | partialStatus
  | errorStatus
deriving DecidableEq

/-- One element of `KnowledgeGenerationResult.results` (an
`AnalysisResult`), with the metadata field the final pass consults. -/
structure AnalysisResultR where
  agentName : List Char
  status : GenStatus
  document : List Char
  realtimeWritten : Bool
  confidence : ℚ
deriving DecidableEq

/-- `KnowledgeGenerationResult` (the fields the claims are about). -/
structure KnowledgeGenerationResultR where
  status : GenStatus
  results : List AnalysisResultR
  overallConfidence : ℚ
  generatedFiles : List (List Char)
  totalTasks : Nat
  successfulTasks : Nat
deriving DecidableEq

/-- `TaskListManager.validateAndPackageResults`. -/
def validateAndPackageResults (taskOutputs : List TaskOutput) : KnowledgeGenerationResultR :=
  let results := taskOutputs.map (fun o =>
    { agentName := o.taskId
      status := GenStatus.success
      document := o.document
      realtimeWritten := o.realtimeWritten
      confidence := calculateTaskConfidence o : AnalysisResultR })
  let overallConfidence : ℚ :=
    if 0 < results.length then
      (results.map (fun r => r.confidence)).sum / (results.length : ℚ)
    else 0
  { status := if 0 < results.length then GenStatus.success else GenStatus.errorStatus
    results := results
    overallConfidence := overallConfidence
    generatedFiles := ANALYSIS_TASKS.map (fun t => t.outputFile)
    totalTasks := ANALYSIS_TASKS.length
    successfulTasks := results.length }

/-- The body of the document-writing loop of
`TaskListManager.updateKnowledgeBase` for one analysis result: write it
unless it was already written live (the `realtimeWritten` metadata skip),
looked up by agent name in the task table via `writeTaskOutput`. -/
def kbStep (s : ScanState) (r : AnalysisResultR) : ScanState :=
  if r.status = GenStatus.success then
    if r.realtimeWritten then s
    else
      match ANALYSIS_TASKS.find? (fun t => t.id = r.agentName) with
      | some _ => { s with writeLog := s.writeLog ++ [(r.agentName, r.document)] }
      | none => s
  else s

/-- The document-writing loop of `TaskListManager.updateKnowledgeBase`. -/
def updateKnowledgeBase (result : KnowledgeGenerationResultR) (st : ScanState) : ScanState :=
  result.results.foldl kbStep st

/-- The session state reached after every live rescan of the growing
buffer (each element of `scans` is one snapshot passed to
`onContentUpdate`) and the final scan over the returned result. -/
def liveState (scans : List (List Char)) (finalResult projectName timestamp : List Char) :
    ScanState :=
  (scans ++ [finalResult]).foldl
    (fun s c => detectAndWriteCompletedTasks c projectName timestamp s) initialState

/-- One full run of `executeKnowledgeGeneration` after the unified prompt
is built: the live scans, the final scan over the returned result,
fallback parsing, aggregation, and the knowledge-base update.  Returns
the packaged result and the final session state. -/
def runSession (scans : List (List Char)) (finalResult : List Char)
    (store : List Char → Option (List Char)) (refsFn : List Char → List (List Char))
    (projectName timestamp : List Char) : KnowledgeGenerationResultR × ScanState :=
  let st1 := liveState scans finalResult projectName timestamp
  let outs := parseTaskOutputs st1.realtimeWrittenTasks store refsFn
    finalResult projectName timestamp
  let result := validateAndPackageResults outs
  (result, updateKnowledgeBase result st1)

/-! ### `SDKHelper.runQuery`: stream consumption and salvage

A query run is modelled by the list of stream events consumed before the
call terminates and by its terminal outcome.  Thinking / tool / status
events do not influence the returned value (they only log), so they are
collapsed into one constructor. -/

/-- A stream event as seen by `runQuery`. -/
inductive StreamEvent
  | contentDelta (text : List Char)
  | otherEvent
deriving DecidableEq

/-- How the call terminates: a `result` message (`success`,
`error_max_turns`, `error_during_execution`, `cancelled`, or another
subtype), an `AbortError` thrown while iterating (the timeout token
firing), or stream end without any result message. -/
inductive TerminalOutcome
  | success (result : List Char)
  | errorMaxTurns
  | errorDuringExecution
  | cancelled
  | otherSubtype (name : List Char)
  | abortError (message : List Char)
  | streamEnd
deriving DecidableEq

/-- The two `QueryOptions` fields that decide salvage behaviour. -/
structure QueryOptions where
  includePartialMessages : Bool
  isFallbackQuery : Bool
deriving DecidableEq

/-- The delta-accumulation loop of `runQuery`: returns
`(partialContent, lastValidContent)`.  `lastValidContent` is updated to
the whole buffer at each delta after which the buffer exceeds 200
characters. -/
def foldDeltas (events : List StreamEvent) : List Char × List Char :=
  events.foldl (fun acc e =>
    match e with
    | StreamEvent.contentDelta t =>
        let pc := acc.1 ++ t
        (pc, if 200 < pc.length then pc else acc.2)
    | StreamEvent.otherEvent => acc) ([], [])

/-- `SDKHelper.runQuery`: the value returned (or the message of the error
thrown) for a given consumed stream and terminal outcome. -/
def runQuery (events : List StreamEvent) (term : TerminalOutcome) (opts : QueryOptions) :
    Except (List Char) (List Char) :=
  let lastValidContent := (foldDeltas events).2
  match term with
  | TerminalOutcome.success r => Except.ok r
  | TerminalOutcome.errorMaxTurns =>
      if opts.isFallbackQuery && opts.includePartialMessages && !lastValidContent.isEmpty then
        Except.ok (lastValidContent ++ "\n\n[注意：降级分析因达到最大轮次限制而截断]".data)
      else Except.error "达到最大对话轮次限制，请简化您的分析任务或拆分为多个小任务".data
  | TerminalOutcome.errorDuringExecution =>
      if !lastValidContent.isEmpty && opts.includePartialMessages then
        Except.ok (lastValidContent ++ "\n\n[注意：分析因执行错误而中断]".data)
      else Except.error "执行过程中发生错误，请检查输入参数和系统配置".data
  | TerminalOutcome.cancelled =>
      if !lastValidContent.isEmpty && opts.includePartialMessages then
        Except.ok (lastValidContent ++ "\n\n[注意：分析被用户取消]".data)
      else Except.error "查询被取消".data
  | TerminalOutcome.otherSubtype s =>
      if !lastValidContent.isEmpty && opts.includePartialMessages then
        Except.ok (lastValidContent ++ "\n\n[注意：分析因错误(".data ++ s ++ ")而中断]".data)
      else Except.error ("Claude查询错误: ".data ++ s)
  | TerminalOutcome.abortError msg =>
      if !lastValidContent.isEmpty && opts.includePartialMessages then
        Except.ok (lastValidContent ++ "\n\n[注意：分析因超时而截断]".data)
      else Except.error msg
  | TerminalOutcome.streamEnd =>
      if !lastValidContent.isEmpty && opts.includePartialMessages then
        Except.ok (lastValidContent ++ "\n\n[注意：分析未完全完成]".data)
      else Except.error "未收到有效的Claude响应".data

/-! ### `SDKHelper.executeAnalysis`: retry, degradation, salvage -/

/-- The merged `SDKConfig` fields driving `executeAnalysis`. -/
structure SDKConfig where
  maxTurns : Option Nat
  timeout : Nat
  retryAttempts : Nat
  retryDelay : Nat
  enablePartialResults : Bool
  fallbackToSimplerPrompt : Bool
deriving DecidableEq

/-- The limit-class test of `executeAnalysis` (turn-limit, timeout, abort),
by substring match on the error message. -/
def isLimitError (msg : List Char) : Bool :=
  jsIncludes msg "达到最大对话轮次".data || jsIncludes msg "最大对话轮次".data ||
  jsIncludes msg "超时".data || jsIncludes msg "AbortError".data ||
  jsIncludes msg "Claude Code process aborted".data

/-- The timeout-class test inside the degradation branch. -/
def isTimeoutError (msg : List Char) : Bool :=
  jsIncludes msg "超时".data || jsIncludes msg "AbortError".data ||
  jsIncludes msg "Claude Code process aborted".data

/-- `SDKHelper.createSimplifiedPrompt`. -/
def createSimplifiedPrompt (originalPrompt : List Char) : List Char :=
  "请对以下内容进行简要分析，专注最关键的信息：\n    \n".data ++ originalPrompt ++
    "\n\n请提供精简的分析结果，限制输出长度，避免详细展开。".data

/-- The degraded (`simplifiedConfig`) request configuration:
`Math.floor(m * 0.6)` modelled as `3 * m / 5` and `timeout * 1.5` as
`3 * t / 2`; the timeout is stretched (capped at 900000 ms) only when the
failure is timeout-class. -/
def buildDegradedConfig (cfg : SDKConfig) (errorMessage : List Char) : SDKConfig :=
  { cfg with
    maxTurns := cfg.maxTurns.map (fun m => max 15 (3 * m / 5))
    timeout := if isTimeoutError errorMessage then min (3 * cfg.timeout / 2) 900000
               else cfg.timeout
    retryAttempts := 1
    fallbackToSimplerPrompt := false
    enablePartialResults := false }

/-- The salvage (`partialConfig`) request configuration. -/
def buildSalvageConfig (cfg : SDKConfig) : SDKConfig :=
  { cfg with enablePartialResults := true, fallbackToSimplerPrompt := false }

/-- What the external engine does on one attempt: the outcome of the
normal query, and (if issued) of the degraded and salvage queries.  Each
is the `runQuery` value of some stream: either a returned string or the
message of the error thrown. -/
structure AttemptBehavior where
  normal : Except (List Char) (List Char)
  degraded : Except (List Char) (List Char)
  salvage : Except (List Char) (List Char)

/-- The kind of a query issued by `executeAnalysis`. -/
inductive ReqKind
  | normalReq
  | degradedReq
  | salvageReq
deriving DecidableEq

/-- A record of one issued query: which path issued it, with which prompt
and configuration. -/
structure Request where
  kind : ReqKind
  prompt : List Char
  config : SDKConfig
deriving DecidableEq

/-- The visible marker appended to an accepted degraded result. -/
def degradedNote : List Char := "\n\n[注意：这是简化版分析结果]".data

/-- The visible marker appended to an accepted salvage result. -/
def salvageNote : List Char := "\n\n[注意：分析未完全完成，这是部分结果]".data

/-- One iteration of the attempt loop of `executeAnalysis`: issue the
normal query; return its result if it exceeds 100 characters; otherwise
classify the failure, possibly issue the one-shot degraded query
(accepted above 50 characters) and, if the degraded query throws, the
salvage query (accepted above 50 characters).  Returns the value
returned (if any), the `errorMessage` of this attempt, and the queries
issued. -/
def attemptStep (prompt : List Char) (cfg : SDKConfig) (b : AttemptBehavior) :
    Option (List Char) × List Char × List Request :=
  let normalTrace := [Request.mk ReqKind.normalReq prompt cfg]
  match b.normal with
  | Except.ok result =>
      if 100 < result.length then (some result, [], normalTrace)
      else
        degradeOrFail "分析结果内容不足".data normalTrace
  | Except.error e => degradeOrFail e normalTrace
where
  /-- The `catch` block: degradation ladder for the error message `msg`. -/
  degradeOrFail (msg : List Char) (tr : List Request) :
      Option (List Char) × List Char × List Request :=
    if isLimitError msg && cfg.fallbackToSimplerPrompt then
      let tr1 := tr ++ [Request.mk ReqKind.degradedReq (createSimplifiedPrompt prompt)
        (buildDegradedConfig cfg msg)]
      match b.degraded with
      | Except.ok fallbackResult =>
          if 50 < fallbackResult.length then
            (some (fallbackResult ++ degradedNote), msg, tr1)
          else (none, msg, tr1)
      | Except.error _ =>
          if cfg.enablePartialResults then
            let tr2 := tr1 ++ [Request.mk ReqKind.salvageReq prompt (buildSalvageConfig cfg)]
            match b.salvage with
            | Except.ok partialResult =>
                if 50 < partialResult.length then
                  (some (partialResult ++ salvageNote), msg, tr2)
                else (none, msg, tr2)
            | Except.error _ => (none, msg, tr2)
          else (none, msg, tr1)
    else (none, msg, tr)

/-- The attempt loop `for attempt in 1..retryAttempts` of
`executeAnalysis`; `fuel` is the number of attempts still available
(including the current one).  On the last attempt the failure propagates
as the `GenerationFailed` error `Claude分析失败: <last message>`. -/
def executeAnalysisLoop (prompt : List Char) (cfg : SDKConfig)
    (oracle : Nat → AttemptBehavior) :
    Nat → Nat → Except (List Char) (List Char) × List Request
  | _, 0 => (Except.error "分析执行失败".data, [])
  | attempt, fuel + 1 =>
      let step := attemptStep prompt cfg (oracle attempt)
      match step.1 with
      | some r => (Except.ok r, step.2.2)
      | none =>
          if fuel = 0 then
            (Except.error ("Claude分析失败: ".data ++ step.2.1), step.2.2)
          else
            let rest := executeAnalysisLoop prompt cfg oracle (attempt + 1) fuel
            (rest.1, step.2.2 ++ rest.2)

/-- `SDKHelper.executeAnalysis` over an abstract per-attempt behaviour of
the engine: the final outcome and the queries issued, in order. -/
def executeAnalysis (prompt : List Char) (cfg : SDKConfig)
    (oracle : Nat → AttemptBehavior) : Except (List Char) (List Char) × List Request :=
  executeAnalysisLoop prompt cfg oracle 1 cfg.retryAttempts

/-- The `overview` task, used as the concrete instance in witnesses. -/
def overviewTask : AnalysisTask :=
  ⟨"overview".data, "项目概览".data, "docs/overview.md".data, 1⟩

/-! ## Shared lemmas -/

theorem jsIncludes_iff (s pat : List Char) : jsIncludes s pat = true ↔ pat <:+: s := by
  simp [jsIncludes]

theorem infix_append_cases (p c ann : List Char) (h : p <:+: c ++ ann) :
    p <:+: c ∨ ∃ p₂, p₂ ≠ [] ∧ p₂ <:+ p ∧ p₂ <:+: ann := by
  rcases eq_or_ne p [] with rfl | hp
  · exact Or.inl List.nil_infix
  · induction c with
    | nil => exact Or.inr ⟨p, hp, List.suffix_refl p, by simpa using h⟩
    | cons a c' ih =>
      rcases List.infix_cons_iff.mp (by simpa using h) with hpre | hinf
      · obtain ⟨t, ht⟩ := hpre
        have ht' : p ++ t = (a :: c') ++ ann := by simpa using ht
        rcases List.append_eq_append_iff.mp ht' with ⟨a', ha, _⟩ | ⟨c₂, hc1, hc2⟩
        · exact Or.inl (List.IsPrefix.isInfix ⟨a', ha.symm⟩)
        · rcases eq_or_ne c₂ [] with rfl | hne
          · exact Or.inl (by rw [hc1, List.append_nil])
          · exact Or.inr ⟨c₂, hne, ⟨a :: c', hc1.symm⟩,
              List.IsPrefix.isInfix ⟨t, hc2.symm⟩⟩
      · rcases ih hinf with h1 | h2
        · exact Or.inl (List.infix_cons h1)
        · exact Or.inr h2

theorem infix_append_of_left {p c : List Char} (ann : List Char) (h : p <:+: c) :
    p <:+: c ++ ann :=
  h.trans (List.prefix_append c ann).isInfix

theorem infix_append_of_right {p ann : List Char} (c : List Char) (h : p <:+: ann) :
    p <:+: c ++ ann :=
  h.trans (List.suffix_append c ann).isInfix

theorem jsIncludes_append_eq (doc pat ann : List Char)
    (hann : ∀ p₂ ∈ pat.tails, p₂ = [] ∨ ¬ p₂ <:+: ann) :
    jsIncludes (doc ++ ann) pat = jsIncludes doc pat := by
  simp only [jsIncludes, decide_eq_decide]
  constructor
  · intro h
    rcases infix_append_cases pat doc ann h with h1 | ⟨p₂, hne, hsuf, hinf⟩
    · exact h1
    · rcases hann p₂ ((List.mem_tails _ _).mpr hsuf) with h2 | h2
      · exact absurd h2 hne
      · exact absurd hinf h2
  · exact infix_append_of_left ann

theorem filterMap_map_sublist {α β γ : Type} (g : α → Option β) (f : α → γ) (h : β → γ)
    (hg : ∀ a b, g a = some b → h b = f a) (l : List α) :
    ∃ l', List.Sublist l' l ∧ (l.filterMap g).map h = l'.map f := by
  induction l with
  | nil => exact ⟨[], List.Sublist.refl [], rfl⟩
  | cons a l ih =>
    obtain ⟨l', hsub, heq⟩ := ih
    cases hga : g a with
    | none => exact ⟨l', hsub.cons a, by simp [List.filterMap_cons, hga, heq]⟩
    | some b => exact ⟨a :: l', hsub.cons₂ a, by simp [List.filterMap_cons, hga, heq, hg a b hga]⟩

theorem foldl_preserve {α σ : Type} (P : σ → Prop) (f : σ → α → σ) (l : List α)
    (hf : ∀ s a, a ∈ l → P s → P (f s a)) (s : σ) (hs : P s) : P (l.foldl f s) := by
  induction l generalizing s with
  | nil => exact hs
  | cons a l ih =>
    exact ih (fun s' a' ha' => hf s' a' (List.mem_cons_of_mem a ha')) _
      (hf s a (List.mem_cons_self a l) hs)

/-! ## C10 -/

/-- C10: for every run of `validateAndPackageResults`, the `generatedFiles`
list of the returned result equals the output-file paths of all four
declared tasks, independent of how many tasks actually resolved or were
physically written — a task whose content was never resolved still has
its path reported as generated. -/
theorem c10_generatedFiles_constant (taskOutputs : List TaskOutput) :
    (validateAndPackageResults taskOutputs).generatedFiles
        = ANALYSIS_TASKS.map (fun t => t.outputFile)
    ∧ (validateAndPackageResults taskOutputs).generatedFiles
        = [ "docs/overview.md".data, "docs/system-architecture.md".data,
            "docs/api-reference.md".data, "docs/business-workflows.md".data ] :=
  ⟨rfl, rfl⟩

/-! ## C2 -/

/-- C2 (amended): the status of the result returned by
`validateAndPackageResults` is binary: `success` exactly when at least one
task resolved (the outputs list is nonempty) and `error` exactly when none
did; the value `partial` is never produced, even when only some of the
declared tasks resolved. -/
theorem c2_status_binary (taskOutputs : List TaskOutput) :
    ((validateAndPackageResults taskOutputs).status = GenStatus.partialStatus ↔ False)
    ∧ ((validateAndPackageResults taskOutputs).status = GenStatus.success ↔ taskOutputs ≠ [])
    ∧ ((validateAndPackageResults taskOutputs).status = GenStatus.errorStatus ↔ taskOutputs = []) := by
  unfold validateAndPackageResults
  cases taskOutputs <;> simp

/-- C2 counterexample: a run in which exactly one of the four declared
tasks resolved (the `overview` task, written live) yields status
`success`, not `partial` as the claim requires for a
some-but-not-all-resolved run. -/
theorem c2_counterexample :
    (validateAndPackageResults (parseTaskOutputs ["overview".data]
        (fun _ => some (List.replicate 10 'a')) (fun _ => []) [] [] [])).status
      = GenStatus.success
    ∧ (validateAndPackageResults (parseTaskOutputs ["overview".data]
        (fun _ => some (List.replicate 10 'a')) (fun _ => []) [] [] [])).results.length = 1
    ∧ ANALYSIS_TASKS.length = 4 := by
  refine ⟨by decide, by decide, by decide⟩

/-- C2 witness: an empty outputs list yields status `error`. -/
theorem c2_status_binary_witness :
    (validateAndPackageResults []).status = GenStatus.errorStatus :=
  (c2_status_binary []).2.2.mpr rfl

/-! ## C5 -/

/-- C5: for every task and every buffer state with both markers found in
order, the delimited segment counts as resolved — handed to persistence
(appended to the write log) and gated as written — exactly when its
trimmed content strictly exceeds 100 characters; a trimmed span of at
most 100 characters, including the boundary case of exactly 100, leaves
the task open (state unchanged up to the opened-task buffer) for a later,
more complete buffer state. -/
theorem c5_detect_threshold (content projectName timestamp : List Char) (st : ScanState)
    (t : AnalysisTask) (si ei : Nat)
    (hw : st.realtimeWrittenTasks.contains t.id = false)
    (hs : jsIndexOf? (startMarker t) content = some si)
    (he : jsIndexOf? (endMarker t) content = some ei)
    (hlt : si < ei) :
    (100 < (jsTrim (jsSubstring content (si + (startMarker t).length) ei)).length →
      (detectTaskStep content projectName timestamp st t).realtimeWrittenTasks
          = st.realtimeWrittenTasks ++ [t.id]
        ∧ (detectTaskStep content projectName timestamp st t).writeLog
          = st.writeLog ++ [(t.id, formatDocument
              (jsTrim (jsSubstring content (si + (startMarker t).length) ei))
              t projectName timestamp)])
    ∧ ((jsTrim (jsSubstring content (si + (startMarker t).length) ei)).length ≤ 100 →
      (detectTaskStep content projectName timestamp st t).realtimeWrittenTasks
          = st.realtimeWrittenTasks
        ∧ (detectTaskStep content projectName timestamp st t).writeLog = st.writeLog)
    ∧ ((jsTrim (jsSubstring content (si + (startMarker t).length) ei)).length = 100 →
      (detectTaskStep content projectName timestamp st t).realtimeWrittenTasks.contains t.id
        = false) := by
  unfold detectTaskStep
  rw [hw, hs, he]
  simp only [Bool.false_eq_true, if_false, hlt, if_true]
  refine ⟨?_, ?_, ?_⟩
  · intro h100
    rw [if_pos h100]
    cases hb : st.taskBuffer.contains t.id <;> simp [hb]
  · intro h100
    rw [if_neg (by omega)]
    cases hb : st.taskBuffer.contains t.id <;> simp [hb]
  · intro h100
    rw [if_neg (by omega)]
    cases hb : st.taskBuffer.contains t.id <;> simp [hb] <;> simpa using hw

set_option maxRecDepth 4000 in
/-- C5 witness: with the `overview` markers around exactly 101 filler
characters the task resolves and is written; around exactly 100 filler
characters (the boundary case) it is left open. -/
theorem c5_detect_threshold_witness :
    (detectTaskStep (startMarker overviewTask ++ List.replicate 101 'x' ++ endMarker overviewTask)
        [] [] initialState overviewTask).realtimeWrittenTasks = ["overview".data]
    ∧ (detectTaskStep (startMarker overviewTask ++ List.replicate 100 'x' ++ endMarker overviewTask)
        [] [] initialState overviewTask).realtimeWrittenTasks.contains "overview".data = false := by
  constructor
  · have h := (c5_detect_threshold
      (startMarker overviewTask ++ List.replicate 101 'x' ++ endMarker overviewTask)
      [] [] initialState overviewTask 0 129 (by decide) (by decide) (by decide) (by decide)).1
      (by decide)
    simpa using h.1
  · have h := (c5_detect_threshold
      (startMarker overviewTask ++ List.replicate 100 'x' ++ endMarker overviewTask)
      [] [] initialState overviewTask 0 128 (by decide) (by decide) (by decide) (by decide)).2.2
      (by decide)
    simpa using h

/-! ## Lemmas on `parseTaskOutputs` -/

theorem nodup_length_le {α : Type} [DecidableEq α] {l₁ l₂ : List α}
    (h1 : l₁.Nodup) (hsub : ∀ x ∈ l₁, x ∈ l₂) : l₁.length ≤ l₂.length := by
  calc l₁.length = l₁.toFinset.card := (List.toFinset_card_of_nodup h1).symm
    _ ≤ l₂.toFinset.card :=
        Finset.card_le_card (fun x hx => List.mem_toFinset.mpr (hsub x (List.mem_toFinset.mp hx)))
    _ ≤ l₂.length := l₂.toFinset_card_le

theorem realtimeOutput_taskId {store : List Char → Option (List Char)}
    {refsFn : List Char → List (List Char)} {tid : List Char} {o : TaskOutput}
    (h : realtimeOutput store refsFn tid = some o) :
    o.taskId = tid ∧ o.realtimeWritten = true ∧ o.taskId ∈ ANALYSIS_TASKS.map (fun t => t.id) := by
  unfold realtimeOutput at h
  cases hf : ANALYSIS_TASKS.find? (fun t => t.id = tid) with
  | none => rw [hf] at h; cases h
  | some t =>
    rw [hf] at h
    have hid : t.id = tid := by simpa using List.find?_some hf
    have hmem : t.id ∈ ANALYSIS_TASKS.map (fun t => t.id) :=
      List.mem_map.mpr ⟨t, List.mem_of_find?_eq_some hf, rfl⟩
    cases hst : store tid with
    | some c => rw [hst] at h; cases h; exact ⟨hid, rfl, hmem⟩
    | none => rw [hst] at h; cases h; exact ⟨hid, rfl, hmem⟩

theorem fallbackOutput_taskId {refsFn : List Char → List (List Char)}
    {a pn ts : List Char} {t : AnalysisTask} {o : TaskOutput}
    (h : fallbackOutput refsFn a pn ts t = some o) :
    o.taskId = t.id ∧ o.realtimeWritten = false
      ∧ ∃ c, extractTaskContentForFallback a t = some c ∧ 100 < c.length := by
  unfold fallbackOutput at h
  cases he : extractTaskContentForFallback a t with
  | none => rw [he] at h; cases h
  | some c =>
    rw [he] at h
    dsimp only at h
    by_cases hl : 100 < c.length
    · rw [if_pos hl] at h; cases h; exact ⟨rfl, rfl, c, rfl, hl⟩
    · rw [if_neg hl] at h; cases h

theorem parse_taskIds_nodup (rt : List (List Char)) (store : List Char → Option (List Char))
    (refsFn : List Char → List (List Char)) (a pn ts : List Char) (hnd : rt.Nodup) :
    ((parseTaskOutputs rt store refsFn a pn ts).map (fun o => o.taskId)).Nodup := by
  unfold parseTaskOutputs
  rw [List.map_append]
  obtain ⟨l₁, hsub₁, heq₁⟩ := filterMap_map_sublist (realtimeOutput store refsFn) id
    (fun o => o.taskId) (fun tid o h => (realtimeOutput_taskId h).1) rt
  obtain ⟨l₂, hsub₂, heq₂⟩ := filterMap_map_sublist (fallbackOutput refsFn a pn ts)
    (fun t => t.id) (fun o => o.taskId) (fun t o h => (fallbackOutput_taskId h).1)
    (ANALYSIS_TASKS.filter (fun t => !(rt.contains t.id)))
  rw [heq₁, heq₂, List.map_id]
  have hfil : ((ANALYSIS_TASKS.filter (fun t => !(rt.contains t.id))).map (fun t => t.id)).Nodup :=
    (show (ANALYSIS_TASKS.map (fun t => t.id)).Nodup by decide).sublist
      ((List.filter_sublist ANALYSIS_TASKS).map (fun t => t.id))
  refine (hnd.sublist hsub₁).append (hfil.sublist (hsub₂.map (fun t => t.id))) ?_
  intro x hx₁ hx₂
  have hxrt : x ∈ rt := hsub₁.subset hx₁
  have hx₂' : x ∈ (ANALYSIS_TASKS.filter (fun t => !(rt.contains t.id))).map (fun t => t.id) :=
    (hsub₂.map (fun t => t.id)).subset hx₂
  obtain ⟨t, ht, rfl⟩ := List.mem_map.mp hx₂'
  have := List.of_mem_filter ht
  simp only [Bool.not_eq_true'] at this
  exact absurd hxrt (by simpa using this)

theorem parse_mem_taskIds (rt : List (List Char)) (store : List Char → Option (List Char))
    (refsFn : List Char → List (List Char)) (a pn ts : List Char) :
    ∀ o ∈ parseTaskOutputs rt store refsFn a pn ts,
      o.taskId ∈ ANALYSIS_TASKS.map (fun t => t.id) := by
  intro o ho
  unfold parseTaskOutputs at ho
  rcases List.mem_append.mp ho with h | h
  · obtain ⟨tid, _, hg⟩ := List.mem_filterMap.mp h
    exact (realtimeOutput_taskId hg).2.2
  · obtain ⟨t, ht, hg⟩ := List.mem_filterMap.mp h
    rw [(fallbackOutput_taskId hg).1]
    exact List.mem_map.mpr ⟨t, List.mem_of_mem_filter ht, rfl⟩

theorem parse_fallback_not_rt (rt : List (List Char)) (store : List Char → Option (List Char))
    (refsFn : List Char → List (List Char)) (a pn ts : List Char) :
    ∀ o ∈ parseTaskOutputs rt store refsFn a pn ts,
      o.realtimeWritten = false → o.taskId ∉ rt := by
  intro o ho hrw
  unfold parseTaskOutputs at ho
  rcases List.mem_append.mp ho with h | h
  · obtain ⟨tid, _, hg⟩ := List.mem_filterMap.mp h
    rw [(realtimeOutput_taskId hg).2.1] at hrw; cases hrw
  · obtain ⟨t, ht, hg⟩ := List.mem_filterMap.mp h
    rw [(fallbackOutput_taskId hg).1]
    have := List.of_mem_filter ht
    simpa using this

theorem parse_absent (rt : List (List Char)) (store : List Char → Option (List Char))
    (refsFn : List Char → List (List Char)) (a pn ts : List Char) (t : AnalysisTask)
    (hmem : t ∈ ANALYSIS_TASKS) (hnr : t.id ∉ rt)
    (hext : ∀ c, extractTaskContentForFallback a t = some c → c.length ≤ 100) :
    t.id ∉ (parseTaskOutputs rt store refsFn a pn ts).map (fun o => o.taskId) := by
  intro hin
  obtain ⟨o, ho, hid⟩ := List.mem_map.mp hin
  unfold parseTaskOutputs at ho
  rcases List.mem_append.mp ho with h | h
  · obtain ⟨tid, htid, hg⟩ := List.mem_filterMap.mp h
    have heq : tid = t.id := by rw [← (realtimeOutput_taskId hg).1, hid]
    exact hnr (heq ▸ htid)
  · obtain ⟨t', ht', hg⟩ := List.mem_filterMap.mp h
    obtain ⟨hid', _, c, hc, hlen⟩ := fallbackOutput_taskId hg
    have htt : t' = t := by
      apply List.inj_on_of_nodup_map (show (ANALYSIS_TASKS.map (fun x => x.id)).Nodup by decide)
        (List.mem_of_mem_filter ht') hmem
      rw [← hid', hid]
    rw [htt] at hc
    have := hext c hc
    omega

/-! ## The session invariant maintained by the live scans -/

/-- Invariant of the mutable session state: the resolved-id set is
duplicate-free and holds only declared task ids, and the write log has at
most one entry per task, each gated by the resolved-id set. -/
def SessionInv (st : ScanState) : Prop :=
  st.realtimeWrittenTasks.Nodup
  ∧ (∀ id ∈ st.realtimeWrittenTasks, id ∈ ANALYSIS_TASKS.map (fun t => t.id))
  ∧ (st.writeLog.map Prod.fst).Nodup
  ∧ (∀ id ∈ st.writeLog.map Prod.fst, id ∈ st.realtimeWrittenTasks)

theorem detectTaskStep_cases (c pn ts : List Char) (st : ScanState) (t : AnalysisTask) :
    ((detectTaskStep c pn ts st t).realtimeWrittenTasks = st.realtimeWrittenTasks
      ∧ (detectTaskStep c pn ts st t).writeLog = st.writeLog)
    ∨ (st.realtimeWrittenTasks.contains t.id = false
      ∧ (detectTaskStep c pn ts st t).realtimeWrittenTasks = st.realtimeWrittenTasks ++ [t.id]
      ∧ ∃ doc, (detectTaskStep c pn ts st t).writeLog = st.writeLog ++ [(t.id, doc)]) := by
  unfold detectTaskStep
  cases hw : st.realtimeWrittenTasks.contains t.id
  case true => simp
  case false =>
    simp only [Bool.false_eq_true, if_false]
    cases hsi : jsIndexOf? (startMarker t) c with
    | none => cases hei : jsIndexOf? (endMarker t) c <;> simp
    | some si =>
      cases hei : jsIndexOf? (endMarker t) c with
      | none => cases hb : st.taskBuffer.contains t.id <;> simp [hb]
      | some ei =>
        by_cases hlt : si < ei
        · by_cases h100 : 100 < (jsTrim (jsSubstring c (si + (startMarker t).length) ei)).length
          · cases hb : st.taskBuffer.contains t.id <;>
              simp [hb, hlt, h100]
          · cases hb : st.taskBuffer.contains t.id <;>
              simp [hb, hlt, h100]
        · cases hb : st.taskBuffer.contains t.id <;> simp [hb, hlt]

theorem detectTaskStep_inv (c pn ts : List Char) (st : ScanState) (t : AnalysisTask)
    (hmem : t ∈ ANALYSIS_TASKS) (h : SessionInv st) : SessionInv (detectTaskStep c pn ts st t) := by
  obtain ⟨h1, h2, h3, h4⟩ := h
  rcases detectTaskStep_cases c pn ts st t with ⟨hr, hl⟩ | ⟨hw, hr, doc, hl⟩
  · exact ⟨hr ▸ h1, hr ▸ h2, hl ▸ h3, by rw [hr, hl]; exact h4⟩
  · have hnotin : t.id ∉ st.realtimeWrittenTasks := by simpa using hw
    refine ⟨?_, ?_, ?_, ?_⟩
    · rw [hr]
      refine h1.append (List.nodup_singleton _) ?_
      intro x hx hx'
      simp only [List.mem_singleton] at hx'
      subst hx'
      exact hnotin hx
    · rw [hr]
      intro id hid
      rcases List.mem_append.mp hid with h' | h'
      · exact h2 id h'
      · simp only [List.mem_singleton] at h'
        subst h'
        exact List.mem_map.mpr ⟨t, hmem, rfl⟩
    · rw [hl, List.map_append]
      refine h3.append (by simp) ?_
      intro x hx hx'
      simp only [List.map_cons, List.map_nil, List.mem_singleton] at hx'
      subst hx'
      exact hnotin (h4 _ hx)
    · rw [hl, hr, List.map_append]
      intro id hid
      rcases List.mem_append.mp hid with h' | h'
      · exact List.mem_append.mpr (Or.inl (h4 id h'))
      · simp only [List.map_cons, List.map_nil, List.mem_singleton] at h'
        exact List.mem_append.mpr (Or.inr (by simp [h']))

theorem detectAndWrite_inv (c pn ts : List Char) (st : ScanState) (h : SessionInv st) :
    SessionInv (detectAndWriteCompletedTasks c pn ts st) :=
  foldl_preserve SessionInv _ ANALYSIS_TASKS
    (fun s a ha hs => detectTaskStep_inv c pn ts s a ha hs) st h

theorem initialState_inv : SessionInv initialState :=
  ⟨List.nodup_nil, by simp [initialState], List.nodup_nil, by simp [initialState]⟩

theorem liveState_inv (scans : List (List Char)) (fr pn ts : List Char) :
    SessionInv (liveState scans fr pn ts) :=
  foldl_preserve SessionInv _ _
    (fun s c _ hs => detectAndWrite_inv c pn ts s hs) _ initialState_inv

theorem validate_agentNames (outs : List TaskOutput) :
    (validateAndPackageResults outs).results.map (fun r => r.agentName)
      = outs.map (fun o => o.taskId) := by
  unfold validateAndPackageResults
  simp [List.map_map, Function.comp]

theorem validate_results_mem (outs : List TaskOutput) :
    ∀ r ∈ (validateAndPackageResults outs).results,
      ∃ o ∈ outs, r.agentName = o.taskId ∧ r.realtimeWritten = o.realtimeWritten
        ∧ r.document = o.document := by
  intro r hr
  unfold validateAndPackageResults at hr
  simp only [List.mem_map] at hr
  obtain ⟨o, ho, rfl⟩ := hr
  exact ⟨o, ho, rfl, rfl, rfl⟩

/-! ## C1 -/

/-- C1 (amended): the `results` list of the outcome of a run contains
exactly the resolved tasks: each declared task id appears at most once,
every entry belongs to a declared task, the list never exceeds the number
of declared tasks, and a task that neither resolved live nor produced
more than 100 fallback characters is absent — it is not represented by a
`missing` entry, contrary to the claim that all N declared tasks always
appear. -/
theorem c1_outcomes (scans : List (List Char)) (finalResult : List Char)
    (store : List Char → Option (List Char)) (refsFn : List Char → List (List Char))
    (pn ts : List Char) :
    (((runSession scans finalResult store refsFn pn ts).1.results.map
        (fun r => r.agentName)).Nodup)
    ∧ (∀ r ∈ (runSession scans finalResult store refsFn pn ts).1.results,
        r.agentName ∈ ANALYSIS_TASKS.map (fun t => t.id))
    ∧ (runSession scans finalResult store refsFn pn ts).1.results.length
        ≤ ANALYSIS_TASKS.length
    ∧ ∀ t ∈ ANALYSIS_TASKS,
        t.id ∉ (liveState scans finalResult pn ts).realtimeWrittenTasks →
        (∀ c, extractTaskContentForFallback finalResult t = some c → c.length ≤ 100) →
        t.id ∉ (runSession scans finalResult store refsFn pn ts).1.results.map
          (fun r => r.agentName) := by
  obtain ⟨hnd, hsub, _, _⟩ := liveState_inv scans finalResult pn ts
  have hfst : (runSession scans finalResult store refsFn pn ts).1
      = validateAndPackageResults (parseTaskOutputs
          (liveState scans finalResult pn ts).realtimeWrittenTasks store refsFn
          finalResult pn ts) := rfl
  refine ⟨?_, ?_, ?_, ?_⟩
  · rw [hfst, validate_agentNames]
    exact parse_taskIds_nodup _ store refsFn finalResult pn ts hnd
  · intro r hr
    rw [hfst] at hr
    obtain ⟨o, ho, heq, _, _⟩ := validate_results_mem _ r hr
    rw [heq]
    exact parse_mem_taskIds _ store refsFn finalResult pn ts o ho
  · have hlen : (runSession scans finalResult store refsFn pn ts).1.results.length
        = ((runSession scans finalResult store refsFn pn ts).1.results.map
            (fun r => r.agentName)).length := (List.length_map _ _).symm
    rw [hlen, hfst, validate_agentNames]
    have h1 := parse_taskIds_nodup
      (liveState scans finalResult pn ts).realtimeWrittenTasks store refsFn
      finalResult pn ts hnd
    have h2 := parse_mem_taskIds
      (liveState scans finalResult pn ts).realtimeWrittenTasks store refsFn
      finalResult pn ts
    calc ((parseTaskOutputs _ store refsFn finalResult pn ts).map (fun o => o.taskId)).length
        ≤ (ANALYSIS_TASKS.map (fun t => t.id)).length := by
          refine nodup_length_le h1 ?_
          intro x hx
          obtain ⟨o, ho, rfl⟩ := List.mem_map.mp hx
          exact h2 o ho
      _ = ANALYSIS_TASKS.length := List.length_map _ _
  · intro t hmem hnr hext
    rw [hfst, validate_agentNames]
    exact parse_absent _ store refsFn finalResult pn ts t hmem hnr hext

/-- C1 witness: in a session with an empty stream nothing resolves, and
the `overview` task (live-unresolved, no fallback match) is absent from
the results. -/
theorem c1_outcomes_witness :
    "overview".data ∉ (runSession [] [] (fun _ => none) (fun _ => []) [] []).1.results.map
      (fun r => r.agentName) := by
  have hext : ∀ c, extractTaskContentForFallback [] overviewTask = some c → c.length ≤ 100 := by
    intro c hc
    rw [show extractTaskContentForFallback [] overviewTask = none by decide] at hc
    cases hc
  exact (c1_outcomes [] [] (fun _ => none) (fun _ => []) [] []).2.2.2 overviewTask
    (by decide) (by decide) hext

/-- C1 counterexample: with an empty buffer no task resolves and the
results list is empty — its length is 0, not the number N = 4 of declared
tasks, and no `missing` outcomes are present. -/
theorem c1_counterexample :
    (runSession [] [] (fun _ => none) (fun _ => []) [] []).1.results.length = 0
    ∧ ANALYSIS_TASKS.length = 4 := by
  exact ⟨by decide, by decide⟩

/-! ## C4 -/

/-- The write entry (possibly none) contributed by one analysis result
during the final knowledge-base pass. -/
def kbEntry (r : AnalysisResultR) : List (List Char × List Char) :=
  if r.status = GenStatus.success ∧ r.realtimeWritten = false
      ∧ (ANALYSIS_TASKS.find? (fun t => t.id = r.agentName)).isSome then
    [(r.agentName, r.document)]
  else []

/-- All write entries of the final knowledge-base pass, in order. -/
def kbWrites : List AnalysisResultR → List (List Char × List Char)
  | [] => []
  | r :: rs => kbEntry r ++ kbWrites rs

theorem kbStep_eq (s : ScanState) (r : AnalysisResultR) :
    kbStep s r = { s with writeLog := s.writeLog ++ kbEntry r } := by
  unfold kbStep kbEntry
  by_cases h1 : r.status = GenStatus.success
  · rw [if_pos h1]
    cases h2 : r.realtimeWritten
    · cases hf : ANALYSIS_TASKS.find? (fun t => t.id = r.agentName) with
      | none => simp [h1, h2, hf]
      | some t => simp [h1, h2, hf]
    · simp [h1, h2]
  · simp [h1]

theorem updateKnowledgeBase_eq (res : KnowledgeGenerationResultR) (st : ScanState) :
    updateKnowledgeBase res st = { st with writeLog := st.writeLog ++ kbWrites res.results } := by
  unfold updateKnowledgeBase
  generalize res.results = l
  induction l generalizing st with
  | nil => simp [kbWrites]
  | cons r rs ih =>
    rw [List.foldl_cons, kbStep_eq, ih]
    simp [kbWrites]

theorem mem_kbWrites {e : List Char × List Char} {l : List AnalysisResultR} :
    e ∈ kbWrites l ↔ ∃ r ∈ l, e ∈ kbEntry r := by
  induction l with
  | nil => simp [kbWrites]
  | cons r rs ih => simp [kbWrites, ih]

theorem kbEntry_mem {e : List Char × List Char} {r : AnalysisResultR} (h : e ∈ kbEntry r) :
    r.realtimeWritten = false ∧ e.1 = r.agentName := by
  unfold kbEntry at h
  split_ifs at h with hc
  · simp only [List.mem_singleton] at h
    subst h
    exact ⟨hc.2.1, rfl⟩
  · cases h

theorem kbWrites_fst_sublist (l : List AnalysisResultR) :
    List.Sublist ((kbWrites l).map Prod.fst) (l.map (fun r => r.agentName)) := by
  induction l with
  | nil => simp [kbWrites]
  | cons r rs ih =>
    show List.Sublist ((kbEntry r ++ kbWrites rs).map Prod.fst) _
    rw [List.map_append]
    unfold kbEntry
    split_ifs
    · simpa using ih.cons₂ r.agentName
    · simpa using ih.cons r.agentName

theorem kbWrites_validate_not_rt (rt : List (List Char))
    (store : List Char → Option (List Char)) (refsFn : List Char → List (List Char))
    (a pn ts : List Char) :
    ∀ x ∈ (kbWrites (validateAndPackageResults
        (parseTaskOutputs rt store refsFn a pn ts)).results).map Prod.fst, x ∉ rt := by
  intro x hx
  obtain ⟨e, he, rfl⟩ := List.mem_map.mp hx
  obtain ⟨r, hr, her⟩ := mem_kbWrites.mp he
  obtain ⟨hrw, hfst⟩ := kbEntry_mem her
  obtain ⟨o, ho, hname, hrw2, _⟩ := validate_results_mem _ r hr
  rw [hfst, hname]
  exact parse_fallback_not_rt rt store refsFn a pn ts o ho (by rw [← hrw2, hrw])

/-- C4: within one session — any number of live rescans followed by the
final knowledge-base pass — at most one physical write is performed per
task id: the full write log has duplicate-free task ids, it extends the
live log, and no id resolved by the live scan is ever written (hence
never overwritten) by the final pass. -/
theorem c4_write_gate (scans : List (List Char)) (finalResult : List Char)
    (store : List Char → Option (List Char)) (refsFn : List Char → List (List Char))
    (pn ts : List Char) :
    ∃ extra,
      (runSession scans finalResult store refsFn pn ts).2.writeLog
          = (liveState scans finalResult pn ts).writeLog ++ extra
      ∧ ((runSession scans finalResult store refsFn pn ts).2.writeLog.map Prod.fst).Nodup
      ∧ ∀ id ∈ (liveState scans finalResult pn ts).realtimeWrittenTasks,
          id ∉ extra.map Prod.fst := by
  obtain ⟨hnd, hsub, hlognd, hlogsub⟩ := liveState_inv scans finalResult pn ts
  have hsnd : (runSession scans finalResult store refsFn pn ts).2
      = updateKnowledgeBase (validateAndPackageResults
          (parseTaskOutputs (liveState scans finalResult pn ts).realtimeWrittenTasks
            store refsFn finalResult pn ts)) (liveState scans finalResult pn ts) := rfl
  refine ⟨kbWrites (validateAndPackageResults
      (parseTaskOutputs (liveState scans finalResult pn ts).realtimeWrittenTasks
        store refsFn finalResult pn ts)).results, ?_, ?_, ?_⟩
  · rw [hsnd, updateKnowledgeBase_eq]
  · rw [hsnd, updateKnowledgeBase_eq]
    dsimp only
    rw [List.map_append]
    have hextra_nd : ((kbWrites (validateAndPackageResults
        (parseTaskOutputs (liveState scans finalResult pn ts).realtimeWrittenTasks
          store refsFn finalResult pn ts)).results).map Prod.fst).Nodup := by
      have hidnd := parse_taskIds_nodup
        (liveState scans finalResult pn ts).realtimeWrittenTasks store refsFn
        finalResult pn ts hnd
      rw [← validate_agentNames] at hidnd
      exact hidnd.sublist (kbWrites_fst_sublist _)
    refine hlognd.append hextra_nd ?_
    intro x hx hx'
    exact kbWrites_validate_not_rt _ store refsFn finalResult pn ts x hx' (hlogsub x hx)
  · intro id hid hid'
    exact kbWrites_validate_not_rt _ store refsFn finalResult pn ts id hid' hid

/-- C4 witness: the write-once gate instantiated on a concrete session in
which the `overview` task resolves during the live scan. -/
theorem c4_write_gate_witness :
    ∃ extra,
      (runSession [startMarker overviewTask ++ List.replicate 140 'x' ++ endMarker overviewTask]
          (startMarker overviewTask ++ List.replicate 140 'x' ++ endMarker overviewTask)
          (fun _ => none) (fun _ => []) [] []).2.writeLog
          = (liveState [startMarker overviewTask ++ List.replicate 140 'x' ++ endMarker overviewTask]
              (startMarker overviewTask ++ List.replicate 140 'x' ++ endMarker overviewTask)
              [] []).writeLog ++ extra
      ∧ (((runSession [startMarker overviewTask ++ List.replicate 140 'x' ++ endMarker overviewTask]
            (startMarker overviewTask ++ List.replicate 140 'x' ++ endMarker overviewTask)
            (fun _ => none) (fun _ => []) [] []).2.writeLog.map Prod.fst).Nodup)
      ∧ ∀ id ∈ (liveState [startMarker overviewTask ++ List.replicate 140 'x' ++ endMarker overviewTask]
            (startMarker overviewTask ++ List.replicate 140 'x' ++ endMarker overviewTask)
            [] []).realtimeWrittenTasks,
          id ∉ extra.map Prod.fst :=
  c4_write_gate [startMarker overviewTask ++ List.replicate 140 'x' ++ endMarker overviewTask]
    (startMarker overviewTask ++ List.replicate 140 'x' ++ endMarker overviewTask)
    (fun _ => none) (fun _ => []) [] []

/-! ## C8 -/

/-- Derived predicate: the fallback pass accepts task `t` from buffer `a`
(some strategy matched and the content exceeds 100 characters). -/
def fallbackHit (a : List Char) (t : AnalysisTask) : Bool :=
  match extractTaskContentForFallback a t with
  | some c => decide (100 < c.length)
  | none => false

theorem filterMap_fallback_ids (l : List AnalysisTask) (refsFn : List Char → List (List Char))
    (a pn ts : List Char) :
    (l.filterMap (fallbackOutput refsFn a pn ts)).map (fun o => o.taskId)
      = (l.filter (fallbackHit a)).map (fun t => t.id) := by
  induction l with
  | nil => rfl
  | cons t l ih =>
    rw [List.filterMap_cons, List.filter_cons]
    cases he : extractTaskContentForFallback a t with
    | none =>
      have h1 : fallbackOutput refsFn a pn ts t = none := by
        unfold fallbackOutput; rw [he]
      have h2 : fallbackHit a t = false := by
        unfold fallbackHit; rw [he]
      rw [h1, h2]
      simpa using ih
    | some c =>
      by_cases hl : 100 < c.length
      · have h1 : fallbackOutput refsFn a pn ts t
            = some ⟨t.id, formatDocument c t pn ts, false, true, refsFn c⟩ := by
          unfold fallbackOutput; rw [he]; dsimp only; rw [if_pos hl]
        have h2 : fallbackHit a t = true := by
          unfold fallbackHit; rw [he]; dsimp only; exact decide_eq_true hl
        rw [h1, h2]
        simp [ih]
      · have h1 : fallbackOutput refsFn a pn ts t = none := by
          unfold fallbackOutput; rw [he]; dsimp only; rw [if_neg hl]
        have h2 : fallbackHit a t = false := by
          unfold fallbackHit; rw [he]; dsimp only; exact decide_eq_false hl
        rw [h1, h2]
        simpa using ih

/-- C8 (amended): the fallback extraction strategies are tried strictly in
the order exact marker match, marker-variant match, heading-based fuzzy
match, and the first strategy that produces a (truthy) match wins; in
particular a buffer lacking exact and variant matches is handed to the
fuzzy matcher, and in the post-termination pass (no live-written tasks)
the produced outputs are exactly the tasks some strategy accepted, in
declaration order.  A task matched by no strategy is skipped — it
produces no outcome at all, rather than being marked `missing` — and the
run is not aborted: the remaining tasks are still extracted. -/
theorem c8_fallback_order (a : List Char) (t : AnalysisTask) :
    (jsTruthy (tryStandardFormat a t) = true →
      extractTaskContentForFallback a t = tryStandardFormat a t)
    ∧ (jsTruthy (tryStandardFormat a t) = false → jsTruthy (tryVariantFormats a t) = true →
      extractTaskContentForFallback a t = tryVariantFormats a t)
    ∧ (jsTruthy (tryStandardFormat a t) = false → jsTruthy (tryVariantFormats a t) = false →
      extractTaskContentForFallback a t = tryFuzzyMatching a t)
    ∧ ∀ (store : List Char → Option (List Char)) (refsFn : List Char → List (List Char))
        (pn ts : List Char),
        (parseTaskOutputs [] store refsFn a pn ts).map (fun o => o.taskId)
          = (ANALYSIS_TASKS.filter (fallbackHit a)).map (fun t => t.id) := by
  refine ⟨?_, ?_, ?_, ?_⟩
  · intro h1
    unfold extractTaskContentForFallback
    dsimp only
    simp [h1]
  · intro h1 h2
    unfold extractTaskContentForFallback
    dsimp only
    simp [h1, h2]
  · intro h1 h2
    unfold extractTaskContentForFallback
    dsimp only
    simp [h1, h2]
  · intro store refsFn pn ts
    unfold parseTaskOutputs
    rw [List.filterMap_nil, List.nil_append]
    rw [show (ANALYSIS_TASKS.filter (fun t => !(List.contains [] t.id))) = ANALYSIS_TASKS by simp]
    exact filterMap_fallback_ids ANALYSIS_TASKS refsFn a pn ts

set_option maxRecDepth 8000 in
/-- C8 witness: a buffer holding only a `# 项目概览` heading followed by 150
characters matches neither the exact nor any variant markers, so the
dispatcher's value is the fuzzy matcher's value — which here accepts. -/
theorem c8_fallback_order_witness :
    extractTaskContentForFallback ("# 项目概览\n".data ++ List.replicate 150 'y') overviewTask
      = tryFuzzyMatching ("# 项目概览\n".data ++ List.replicate 150 'y') overviewTask
    ∧ (tryFuzzyMatching ("# 项目概览\n".data ++ List.replicate 150 'y') overviewTask).isSome
      = true := by
  constructor
  · exact (c8_fallback_order ("# 项目概览\n".data ++ List.replicate 150 'y') overviewTask).2.2.1
      (by decide) (by decide)
  · decide

set_option maxRecDepth 8000 in
/-- C8 counterexample: in a buffer holding only a completed
`systemArchitecture` segment, the `overview` task matches no strategy,
and the parsed outcomes contain no entry for it whatsoever — there is no
`missing`-marked outcome (no such marking exists in the code); the run is
not aborted, as the `systemArchitecture` task is still extracted. -/
theorem c8_counterexample :
    extractTaskContentForFallback
        (startMarker ⟨"systemArchitecture".data, "系统架构与组件设计".data,
            "docs/system-architecture.md".data, 2⟩
          ++ List.replicate 140 'x'
          ++ endMarker ⟨"systemArchitecture".data, "系统架构与组件设计".data,
              "docs/system-architecture.md".data, 2⟩)
        overviewTask = none
    ∧ (parseTaskOutputs [] (fun _ => none) (fun _ => [])
        (startMarker ⟨"systemArchitecture".data, "系统架构与组件设计".data,
            "docs/system-architecture.md".data, 2⟩
          ++ List.replicate 140 'x'
          ++ endMarker ⟨"systemArchitecture".data, "系统架构与组件设计".data,
              "docs/system-architecture.md".data, 2⟩)
        [] []).map (fun o => o.taskId)
      = ["systemArchitecture".data] := by
  exact ⟨by decide, by decide⟩

/-! ## C3 -/

/-- C3 (amended): for every terminal outcome other than success — and, for
the turn-limit outcome, only on a fallback query — `runQuery` returns the
buffered text (`lastValidContent`) with a truncation annotation appended
instead of throwing, provided partial messages are enabled and
`lastValidContent` is nonempty, which requires the buffer to have
exceeded 200 characters at some content delta (not merely the 50
characters the claim states). -/
theorem c3_runQuery_salvage (events : List StreamEvent) (term : TerminalOutcome)
    (opts : QueryOptions)
    (hp : opts.includePartialMessages = true)
    (hb : (foldDeltas events).2 ≠ [])
    (hs : ∀ r, term ≠ TerminalOutcome.success r)
    (hmt : term = TerminalOutcome.errorMaxTurns → opts.isFallbackQuery = true) :
    ∃ note, runQuery events term opts = Except.ok ((foldDeltas events).2 ++ note) := by
  have hb' : (foldDeltas events).2.isEmpty = false := by
    cases h : (foldDeltas events).2 with
    | nil => exact absurd h hb
    | cons x l => rfl
  cases term with
  | success r => exact absurd rfl (hs r)
  | errorMaxTurns =>
    exact ⟨"\n\n[注意：降级分析因达到最大轮次限制而截断]".data,
      by unfold runQuery; simp [hmt rfl, hp, hb']⟩
  | errorDuringExecution =>
    exact ⟨"\n\n[注意：分析因执行错误而中断]".data, by unfold runQuery; simp [hp, hb']⟩
  | cancelled =>
    exact ⟨"\n\n[注意：分析被用户取消]".data, by unfold runQuery; simp [hp, hb']⟩
  | otherSubtype s =>
    exact ⟨"\n\n[注意：分析因错误(".data ++ s ++ ")而中断]".data,
      by unfold runQuery; simp [hp, hb']⟩
  | abortError msg =>
    exact ⟨"\n\n[注意：分析因超时而截断]".data, by unfold runQuery; simp [hp, hb']⟩
  | streamEnd =>
    exact ⟨"\n\n[注意：分析未完全完成]".data, by unfold runQuery; simp [hp, hb']⟩

set_option maxRecDepth 4000 in
/-- C3 witness (Scenario D): a cancellation firing after 300 buffered
characters with partial messages enabled returns salvage content with a
truncation annotation instead of raising. -/
theorem c3_runQuery_salvage_witness :
    ∃ note, runQuery [StreamEvent.contentDelta (List.replicate 300 'a')]
        TerminalOutcome.cancelled ⟨true, false⟩
      = Except.ok ((foldDeltas [StreamEvent.contentDelta (List.replicate 300 'a')]).2 ++ note) :=
  c3_runQuery_salvage [StreamEvent.contentDelta (List.replicate 300 'a')]
    TerminalOutcome.cancelled ⟨true, false⟩ rfl (by decide)
    (fun r h => by cases h) (fun h => by cases h)

set_option maxRecDepth 4000 in
/-- C3 counterexample: a cancellation with 100 buffered characters (well
above the 50 the claim names) and partial messages enabled still throws,
because `lastValidContent` is only recorded once the buffer exceeds 200
characters. -/
theorem c3_counterexample :
    runQuery [StreamEvent.contentDelta (List.replicate 100 'a')]
        TerminalOutcome.cancelled ⟨true, false⟩
      = Except.error "查询被取消".data
    ∧ (foldDeltas [StreamEvent.contentDelta (List.replicate 100 'a')]).1.length = 100 := by
  exact ⟨rfl, by decide⟩

/-! ## C6 -/

theorem attemptStep_trace_degraded (p : List Char) (cfg : SDKConfig) (b : AttemptBehavior)
    (msg : List Char) (hn : b.normal = Except.error msg)
    (hl : isLimitError msg = true) (hf : cfg.fallbackToSimplerPrompt = true) :
    ∃ tail, (attemptStep p cfg b).2.2
        = Request.mk ReqKind.normalReq p cfg
          :: Request.mk ReqKind.degradedReq (createSimplifiedPrompt p)
              (buildDegradedConfig cfg msg) :: tail
      ∧ ∀ r ∈ tail, r.kind = ReqKind.salvageReq := by
  unfold attemptStep
  rw [hn]
  dsimp only
  unfold attemptStep.degradeOrFail
  rw [hl, hf]
  simp only [Bool.and_self, if_true]
  cases hd : b.degraded with
  | ok fr =>
    by_cases h50 : 50 < fr.length
    · exact ⟨[], by simp [h50], by simp⟩
    · exact ⟨[], by simp [h50], by simp⟩
  | error e =>
    cases hp : cfg.enablePartialResults
    · exact ⟨[], by simp [hp], by simp⟩
    · cases hs : b.salvage with
      | ok pr =>
        by_cases h50 : 50 < pr.length
        · exact ⟨[Request.mk ReqKind.salvageReq p (buildSalvageConfig cfg)],
            by simp [hp, h50], by simp⟩
        · exact ⟨[Request.mk ReqKind.salvageReq p (buildSalvageConfig cfg)],
            by simp [hp, h50], by simp⟩
      | error e' =>
        exact ⟨[Request.mk ReqKind.salvageReq p (buildSalvageConfig cfg)],
          by simp [hp], by simp⟩

/-- C6 (amended): on the first attempt whose failure is limit-class
(turn-limit, timeout, abort) with degradation enabled — regardless of how
many attempts remain, so in particular on the first occurrence and not
only on the last attempt — a degraded request is issued immediately after
that attempt's normal request, consisting of the simplified prompt, the
turn limit replaced by `max 15 ⌊0.6·limit⌋` when one was set (and left
absent otherwise), a timeout scaled by 1.5 and capped at 900000 ms *only*
when the failure is timeout/abort-class (unchanged for turn-limit-class
failures), configured for a single attempt with degradation disabled, and
issued exactly once within the attempt. -/
theorem c6_degradation (p : List Char) (cfg : SDKConfig) (oracle : Nat → AttemptBehavior)
    (msg : List Char)
    (h1 : (oracle 1).normal = Except.error msg)
    (hl : isLimitError msg = true)
    (hf : cfg.fallbackToSimplerPrompt = true)
    (hr : 1 ≤ cfg.retryAttempts) :
    (∃ rest, (executeAnalysis p cfg oracle).2
        = Request.mk ReqKind.normalReq p cfg
          :: Request.mk ReqKind.degradedReq (createSimplifiedPrompt p)
              (buildDegradedConfig cfg msg) :: rest)
    ∧ ((attemptStep p cfg (oracle 1)).2.2.filter
        (fun r => r.kind = ReqKind.degradedReq)).length = 1
    ∧ (buildDegradedConfig cfg msg).retryAttempts = 1
    ∧ (buildDegradedConfig cfg msg).fallbackToSimplerPrompt = false
    ∧ (buildDegradedConfig cfg msg).timeout
        = (if isTimeoutError msg = true then min (3 * cfg.timeout / 2) 900000 else cfg.timeout)
    ∧ (buildDegradedConfig cfg msg).maxTurns = cfg.maxTurns.map (fun m => max 15 (3 * m / 5)) := by
  obtain ⟨tail, htr, hall⟩ := attemptStep_trace_degraded p cfg (oracle 1) msg h1 hl hf
  refine ⟨?_, ?_, rfl, rfl, ?_, rfl⟩
  · unfold executeAnalysis
    cases hra : cfg.retryAttempts with
    | zero => omega
    | succ n =>
      rw [executeAnalysisLoop]
      cases hs1 : (attemptStep p cfg (oracle 1)).1 with
      | some r => exact ⟨tail, by simp [hs1, htr]⟩
      | none =>
        by_cases hn0 : n = 0
        · exact ⟨tail, by simp [hs1, hn0, htr]⟩
        · exact ⟨tail ++ (executeAnalysisLoop p cfg oracle 2 n).2,
            by simp [hs1, hn0, htr]⟩
  · rw [htr]
    rw [List.filter_cons, List.filter_cons]
    have h0 : (tail.filter (fun r => r.kind = ReqKind.degradedReq)) = [] := by
      rw [List.filter_eq_nil_iff]
      intro r hrr
      simp [hall r hrr]
    simp [h0]
  · unfold buildDegradedConfig
    by_cases ht : isTimeoutError msg = true
    · simp [ht]
    · simp [ht, Bool.of_not_eq_true ht]

/-- C6 witness: a turn-limit failure on attempt 1 of 2 (more attempts
remaining) with a 25-turn limit and a 5-minute timeout issues the
degraded request immediately, with the turn limit lowered to 15 and the
timeout unchanged. -/
theorem c6_degradation_witness :
    ∃ rest, (executeAnalysis [] ⟨some 25, 300000, 2, 1000, false, true⟩
        (fun _ => ⟨Except.error
            "达到最大对话轮次限制，请简化您的分析任务或拆分为多个小任务".data,
          Except.error [], Except.error []⟩)).2
      = Request.mk ReqKind.normalReq [] ⟨some 25, 300000, 2, 1000, false, true⟩
        :: Request.mk ReqKind.degradedReq (createSimplifiedPrompt [])
            (buildDegradedConfig ⟨some 25, 300000, 2, 1000, false, true⟩
              "达到最大对话轮次限制，请简化您的分析任务或拆分为多个小任务".data) :: rest :=
  (c6_degradation [] ⟨some 25, 300000, 2, 1000, false, true⟩
    (fun _ => ⟨Except.error
        "达到最大对话轮次限制，请简化您的分析任务或拆分为多个小任务".data,
      Except.error [], Except.error []⟩)
    "达到最大对话轮次限制，请简化您的分析任务或拆分为多个小任务".data
    rfl (by decide) rfl (by decide)).1

/-- C6 counterexample: the turn-limit error message is limit-class but not
timeout-class, so the degraded request keeps the original 300000 ms
timeout instead of the scaled-up 450000 ms the claim requires for every
limit-class failure. -/
theorem c6_counterexample :
    isLimitError "达到最大对话轮次限制，请简化您的分析任务或拆分为多个小任务".data = true
    ∧ isTimeoutError "达到最大对话轮次限制，请简化您的分析任务或拆分为多个小任务".data = false
    ∧ (buildDegradedConfig ⟨some 25, 300000, 2, 1000, false, true⟩
        "达到最大对话轮次限制，请简化您的分析任务或拆分为多个小任务".data).timeout = 300000
    ∧ (3 * 300000 / 2 : Nat) = 450000 := by
  exact ⟨by decide, by decide, by decide, by decide⟩

/-! ## C7 -/

/-- One attempt of `executeAnalysis` harvests nothing: the normal query
does not exceed 100 characters and neither the degraded nor the salvage
query exceeds 50. -/
def attemptYieldsNothing (b : AttemptBehavior) : Prop :=
  (∀ r, b.normal = Except.ok r → r.length ≤ 100)
  ∧ (∀ r, b.degraded = Except.ok r → r.length ≤ 50)
  ∧ (∀ r, b.salvage = Except.ok r → r.length ≤ 50)

/-- The `errorMessage` recorded for an attempt: the thrown message, or the
too-short complaint when the normal query returned but was too short. -/
def attemptMsg (b : AttemptBehavior) : List Char :=
  match b.normal with
  | Except.ok _ => "分析结果内容不足".data
  | Except.error e => e

theorem attemptStep_none (p : List Char) (cfg : SDKConfig) (b : AttemptBehavior)
    (h : attemptYieldsNothing b) :
    (attemptStep p cfg b).1 = none ∧ (attemptStep p cfg b).2.1 = attemptMsg b := by
  obtain ⟨hn, hd, hs⟩ := h
  unfold attemptStep attemptMsg
  cases hb : b.normal with
  | ok r =>
    dsimp only
    have h100 : ¬(100 < r.length) := by have := hn r hb; omega
    rw [if_neg h100]
    unfold attemptStep.degradeOrFail
    rw [show isLimitError "分析结果内容不足".data = false by decide]
    simp
  | error e =>
    dsimp only
    unfold attemptStep.degradeOrFail
    cases hc : (isLimitError e && cfg.fallbackToSimplerPrompt)
    · simp
    · rw [if_pos rfl]
      cases hdd : b.degraded with
      | ok fr =>
        have h50 : ¬(50 < fr.length) := by have := hd fr hdd; omega
        simp [h50]
      | error e' =>
        cases hpp : cfg.enablePartialResults
        · simp
        · cases hss : b.salvage with
          | ok pr =>
            have h50 : ¬(50 < pr.length) := by have := hs pr hss; omega
            simp [h50]
          | error e'' => simp

theorem loop_exhaust (p : List Char) (cfg : SDKConfig) (oracle : Nat → AttemptBehavior) :
    ∀ (fuel attempt : Nat), 1 ≤ fuel →
      (∀ k, attempt ≤ k → k < attempt + fuel → attemptYieldsNothing (oracle k)) →
      (executeAnalysisLoop p cfg oracle attempt fuel).1
        = Except.error ("Claude分析失败: ".data ++ attemptMsg (oracle (attempt + fuel - 1))) := by
  intro fuel
  induction fuel with
  | zero => intro attempt h; omega
  | succ n ih =>
    intro attempt _ hall
    have hstep := attemptStep_none p cfg (oracle attempt) (hall attempt le_rfl (by omega))
    rw [executeAnalysisLoop]
    simp only [hstep.1]
    by_cases hn0 : n = 0
    · subst hn0
      simp [hstep.2]
    · rw [if_neg hn0]
      have hrec := ih (attempt + 1) (by omega)
        (fun k hk1 hk2 => hall k (by omega) (by omega))
      rw [show attempt + 1 + n - 1 = attempt + (n + 1) - 1 by omega] at hrec
      dsimp only
      rw [hrec]

/-- C7 (amended): when no attempt yields anything — the normal query never
exceeds 100 characters and neither the degraded nor the salvage query
exceeds 50 (not 100: a degraded or salvage result of 51–100 characters
would be returned) — every remaining attempt is retried and, after all
attempts are exhausted, the run fails with `GenerationFailed`
(`Claude分析失败: …`) carrying the last attempt's error message. -/
theorem c7_generation_failed (p : List Char) (cfg : SDKConfig) (oracle : Nat → AttemptBehavior)
    (hr : 1 ≤ cfg.retryAttempts)
    (h : ∀ k, 1 ≤ k → k ≤ cfg.retryAttempts → attemptYieldsNothing (oracle k)) :
    (executeAnalysis p cfg oracle).1
      = Except.error ("Claude分析失败: ".data ++ attemptMsg (oracle cfg.retryAttempts)) := by
  unfold executeAnalysis
  have hmain := loop_exhaust p cfg oracle cfg.retryAttempts 1 hr
    (fun k hk1 hk2 => h k hk1 (by omega))
  rw [show 1 + cfg.retryAttempts - 1 = cfg.retryAttempts by omega] at hmain
  exact hmain

/-- C7 witness: two attempts, every query failing with the turn-limit
error, partial results disabled — the run fails with `GenerationFailed`
carrying the last error. -/
theorem c7_generation_failed_witness :
    (executeAnalysis [] ⟨none, 300000, 2, 1000, false, true⟩
        (fun _ => ⟨Except.error
            "达到最大对话轮次限制，请简化您的分析任务或拆分为多个小任务".data,
          Except.error [], Except.error []⟩)).1
      = Except.error ("Claude分析失败: ".data
          ++ "达到最大对话轮次限制，请简化您的分析任务或拆分为多个小任务".data) :=
  c7_generation_failed [] ⟨none, 300000, 2, 1000, false, true⟩
    (fun _ => ⟨Except.error
        "达到最大对话轮次限制，请简化您的分析任务或拆分为多个小任务".data,
      Except.error [], Except.error []⟩)
    (by decide)
    (fun k _ _ => ⟨(fun r hr => nomatch hr), (fun r hr => nomatch hr), (fun r hr => nomatch hr)⟩)

/-- C7 counterexample (Scenario B): a turn-limit failure with partial
results disabled triggers the degraded retry, and a degraded result of
only 60 characters — under the 100-character minimum — is returned with
the degradation marker rather than failing with `GenerationFailed`. -/
theorem c7_counterexample :
    (executeAnalysis [] ⟨none, 300000, 2, 1000, false, true⟩
        (fun _ => ⟨Except.error
            "达到最大对话轮次限制，请简化您的分析任务或拆分为多个小任务".data,
          Except.ok (List.replicate 60 'b'), Except.error []⟩)).1
      = Except.ok (List.replicate 60 'b' ++ degradedNote)
    ∧ (List.replicate 60 'b' : List Char).length < 100 := by
  exact ⟨rfl, by decide⟩

/-! ## C9 -/

/-- The length component of the confidence score:
`Math.min(length / 2000, 1) * 0.4`. -/
def lengthTerm (n : Nat) : ℚ := min ((n : ℚ) / 2000) 1 * (4 / 10)

/-- The degraded/partial-annotation test of `calculateTaskConfidence`. -/
def hasNoteMarker (doc : List Char) : Bool :=
  jsIncludes doc "[注意：".data || jsIncludes doc "分析因".data

/-- The structural bonuses of the confidence score. -/
def structBonus (doc : List Char) (refs : Nat) : ℚ :=
  (if jsIncludes doc "#".data && jsIncludes doc "##".data then (2 : ℚ) / 10 else 0)
  + (if jsIncludes doc "```mermaid".data then (1 : ℚ) / 10 else 0)
  + (if jsIncludes doc "|".data && jsIncludes doc "---".data then (1 : ℚ) / 10 else 0)
  + (if 0 < refs then (1 : ℚ) / 10 else 0)

theorem calc_conf_eq (o : TaskOutput) :
    calculateTaskConfidence o
      = min ((if hasNoteMarker o.document then (7 : ℚ) / 10 else 1)
          * (lengthTerm o.document.length + structBonus o.document o.references.length)) 1 := by
  unfold calculateTaskConfidence lengthTerm hasNoteMarker structBonus
  refine congrArg (fun x => min x 1) ?_
  split_ifs <;> ring

theorem lengthTerm_nonneg (n : Nat) : 0 ≤ lengthTerm n :=
  mul_nonneg (le_min (by positivity) (by norm_num)) (by norm_num)

theorem lengthTerm_mono {m n : Nat} (h : m ≤ n) : lengthTerm m ≤ lengthTerm n := by
  unfold lengthTerm
  have : ((m : ℚ) / 2000) ≤ ((n : ℚ) / 2000) := by
    apply div_le_div_of_nonneg_right ?_ (by norm_num)
    · exact_mod_cast h
  exact mul_le_mul_of_nonneg_right (min_le_min this le_rfl) (by norm_num)

theorem lengthTerm_add_le (n k : Nat) :
    lengthTerm (n + k) ≤ lengthTerm n + (k : ℚ) / 2000 * (4 / 10) := by
  unfold lengthTerm
  have hmin : min ((↑(n + k) : ℚ) / 2000) 1 ≤ min ((n : ℚ) / 2000) 1 + (k : ℚ) / 2000 := by
    rcases le_total ((n : ℚ) / 2000) 1 with h | h
    · rw [min_eq_left h]
      calc min ((↑(n + k) : ℚ) / 2000) 1 ≤ (↑(n + k) : ℚ) / 2000 := min_le_left _ _
        _ = (n : ℚ) / 2000 + (k : ℚ) / 2000 := by push_cast; ring
    · rw [min_eq_right h]
      calc min ((↑(n + k) : ℚ) / 2000) 1 ≤ 1 := min_le_right _ _
        _ ≤ 1 + (k : ℚ) / 2000 := le_add_of_nonneg_right (by positivity)
  calc min ((↑(n + k) : ℚ) / 2000) 1 * (4 / 10)
      ≤ (min ((n : ℚ) / 2000) 1 + (k : ℚ) / 2000) * (4 / 10) :=
        mul_le_mul_of_nonneg_right hmin (by norm_num)
    _ = min ((n : ℚ) / 2000) 1 * (4 / 10) + (k : ℚ) / 2000 * (4 / 10) := by ring

theorem structBonus_nonneg (doc : List Char) (refs : Nat) : 0 ≤ structBonus doc refs := by
  unfold structBonus
  split_ifs <;> norm_num

theorem structBonus_append_note (doc : List Char) (refs : Nat) :
    structBonus (doc ++ degradedNote) refs = structBonus doc refs := by
  unfold structBonus
  rw [jsIncludes_append_eq doc "#".data degradedNote (by decide),
      jsIncludes_append_eq doc "##".data degradedNote (by decide),
      jsIncludes_append_eq doc "```mermaid".data degradedNote (by decide),
      jsIncludes_append_eq doc "|".data degradedNote (by decide),
      jsIncludes_append_eq doc "---".data degradedNote (by decide)]

theorem hasNoteMarker_append_note (doc : List Char) :
    hasNoteMarker (doc ++ degradedNote) = true := by
  unfold hasNoteMarker
  have h : jsIncludes (doc ++ degradedNote) "[注意：".data = true := by
    rw [jsIncludes_iff]
    exact infix_append_of_right doc (by decide)
  rw [h]
  rfl

/-- C9 (amended): for every task content of at least 38 characters that
does not already carry a degradation/partial marker, the confidence of
the degraded resolution (the same content with the degradation annotation
appended, hence hit by the fixed 0.7 damping multiplier) is at most the
confidence of the equivalent live resolution, for identical references;
and every computed confidence lies in [0, 1].  For shorter content the
annotation's own length contribution can exceed the damping, so the
unrestricted claim fails. -/
theorem c9_confidence_mono (doc : List Char) (refs : List (List Char)) (tid tid' : List Char)
    (a b a' b' : Bool)
    (hlen : 38 ≤ doc.length)
    (h1 : ¬ ("[注意：".data <:+: doc))
    (h2 : ¬ ("分析因".data <:+: doc)) :
    calculateTaskConfidence ⟨tid, doc ++ degradedNote, a, b, refs⟩
      ≤ calculateTaskConfidence ⟨tid', doc, a', b', refs⟩
    ∧ ∀ o : TaskOutput, 0 ≤ calculateTaskConfidence o ∧ calculateTaskConfidence o ≤ 1 := by
  constructor
  · rw [calc_conf_eq, calc_conf_eq]
    dsimp only
    rw [structBonus_append_note, hasNoteMarker_append_note]
    have hmk : hasNoteMarker doc = false := by
      unfold hasNoteMarker
      rw [show jsIncludes doc "[注意：".data = false by
            simp only [jsIncludes, decide_eq_false_iff_not]; exact h1,
          show jsIncludes doc "分析因".data = false by
            simp only [jsIncludes, decide_eq_false_iff_not]; exact h2]
      rfl
    rw [hmk, if_pos rfl]
    simp only [Bool.false_eq_true, if_false, one_mul]
    rw [List.length_append, show degradedNote.length = 16 from by decide]
    apply min_le_min _ le_rfl
    have hL : lengthTerm (doc.length + 16) ≤ lengthTerm doc.length + (16 : ℚ) / 2000 * (4 / 10) :=
      lengthTerm_add_le _ 16
    have hL38 : lengthTerm 38 ≤ lengthTerm doc.length := lengthTerm_mono hlen
    have hL38v : lengthTerm 38 = 19 / 2500 := by
      unfold lengthTerm
      rw [min_eq_left (by norm_num)]
      norm_num
    have hB : 0 ≤ structBonus doc refs.length := structBonus_nonneg _ _
    rw [hL38v] at hL38
    linarith
  · intro o
    rw [calc_conf_eq]
    constructor
    · refine le_min (mul_nonneg ?_ ?_) (by norm_num)
      · split_ifs <;> norm_num
      · exact add_nonneg (lengthTerm_nonneg _) (structBonus_nonneg _ _)
    · exact min_le_right _ _

/-- C9 witness: a 38-character marker-free content scores no higher after
degradation than live, and a sample confidence lies in [0, 1]. -/
theorem c9_confidence_mono_witness :
    calculateTaskConfidence
        ⟨"overview".data, List.replicate 38 'a' ++ degradedNote, false, true, []⟩
      ≤ calculateTaskConfidence ⟨"overview".data, List.replicate 38 'a', true, false, []⟩ :=
  (c9_confidence_mono (List.replicate 38 'a') [] "overview".data "overview".data
    false true true false (by decide) (by decide) (by decide)).1

/-- C9 counterexample: on empty content the degraded document (annotation
only) scores strictly higher than the live document, because the
annotation's length term outweighs the 0.7 damping — so the unrestricted
monotonicity claim is false. -/
theorem c9_counterexample :
    calculateTaskConfidence ⟨"overview".data, ([] : List Char) ++ degradedNote, false, true, []⟩
      > calculateTaskConfidence ⟨"overview".data, [], true, false, []⟩ := by
  have hA : calculateTaskConfidence
      ⟨"overview".data, ([] : List Char) ++ degradedNote, false, true, []⟩
      = 7 / 10 * (16 / 2000 * (4 / 10)) := by
    rw [calc_conf_eq]
    dsimp only
    rw [List.nil_append]
    rw [show hasNoteMarker degradedNote = true from by decide, if_pos rfl]
    rw [show structBonus degradedNote (List.length ([] : List (List Char))) = 0 from by
      unfold structBonus
      rw [show jsIncludes degradedNote "#".data = false from by decide,
          show jsIncludes degradedNote "```mermaid".data = false from by decide,
          show jsIncludes degradedNote "|".data = false from by decide]
      norm_num]
    rw [show degradedNote.length = 16 from by decide]
    rw [show lengthTerm 16 = 16 / 2000 * (4 / 10) from by
      unfold lengthTerm; rw [min_eq_left (by norm_num)]; norm_num]
    rw [min_eq_left (by norm_num)]
    ring
  have hB : calculateTaskConfidence ⟨"overview".data, [], true, false, []⟩ = 0 := by
    rw [calc_conf_eq]
    dsimp only
    rw [show hasNoteMarker ([] : List Char) = false from by decide]
    simp only [Bool.false_eq_true, if_false]
    rw [show structBonus ([] : List Char) (List.length ([] : List (List Char))) = 0 from by
      unfold structBonus
      rw [show jsIncludes ([] : List Char) "#".data = false from by decide,
          show jsIncludes ([] : List Char) "```mermaid".data = false from by decide,
          show jsIncludes ([] : List Char) "|".data = false from by decide]
      norm_num]
    rw [show lengthTerm (List.length ([] : List Char)) = 0 from by
      simp [lengthTerm]]
    norm_num
  rw [hA, hB]
  norm_num

end RepoMind
